import Mathlib

/-
  Shallow embedding of libbpf-tools/runqlen.c: the sampling-session
  orchestrator and histogram reporting engine.

  A histogram is the slot array of `struct hist` (slot counters are
  unsigned sample counts, modelled as naturals; the sampler increments
  them one per observed sample, so 64-bit wrap-around is unreachable and
  is not modelled).  The shared BSS table `bss->hists` is a list of
  histograms, one per possible processor.  The occupancy percentage is
  computed over the rationals: the C code divides in floating point, but
  the quantities compared here (bounds, exact values at small inputs)
  are exact in the rationals.
-/

namespace Runqlen

/-- One histogram: the `slots` array of `struct hist`.  Its length is the
compile-time bucket count MAX_SLOTS, carried as a parameter `B`. -/
abbrev Hist := List Nat

/-- The shared table `bss->hists`: one histogram per processor. -/
abbrev Table := List Hist

/-- The all-zero histogram `static struct hist zero` with B slots. -/
def zeroHist (B : Nat) : Hist := List.replicate B 0

/-- Lines 164-166 and 190-192: `hist = bss->hists[i]; bss->hists[i] = zero;`
returns the drained histogram and the table with row `i` zeroed. -/
def readAndReset (B : Nat) (t : Table) (i : Nat) : Hist × Table :=
  (t.getD i (zeroHist B), t.set i (zeroHist B))

/-- The slot scan of lines 167-174, slot 0 contribution: `idle += val`. -/
def histIdle (h : Hist) : Nat := h.headD 0

/-- The slot scan of lines 167-174, slots 1..B-1: `queued += val`. -/
def histQueued (h : Hist) : Nat := (h.drop 1).sum

/-- Line 175-176: `samples = idle + queued; runqocc = queued * 1.0 /
max(1ULL, samples)`, then printed as `100 * runqocc`.  Exact rational
value of the emitted percentage. -/
def occPct (idle queued : Nat) : ℚ :=
  100 * (queued : ℚ) / ((max 1 (idle + queued) : Nat) : ℚ)

/-- The do-while of `print_runq_occupancy` (lines 164-182), running for a
given iteration count starting at row `i`.  The accumulators `idle` and
`queued` are declared OUTSIDE the loop in the C (line 159) and therefore
carry over from one processor to the next. -/
def occRun (B : Nat) : Nat → Nat → Table → Nat → Nat → List ℚ × Table
  | 0, _, t, _, _ => ([], t)
  | n + 1, i, t, idle, queued =>
      let hr := readAndReset B t i
      let idle2 := idle + histIdle hr.1
      let queued2 := queued + histQueued hr.1
      let rest := occRun B n (i + 1) hr.2 idle2 queued2
      (occPct idle2 queued2 :: rest.1, rest.2)

/-- The do-while condition `while (env.per_cpu && ++i < nr_cpus)`: the
body runs once when per-cpu mode is off, and max 1 nr_cpus times when it
is on (a do-while body always runs at least once). -/
def reportIters (perCpu : Bool) (nrCpus : Nat) : Nat :=
  if perCpu then max 1 nrCpus else 1

/-- `print_runq_occupancy` (lines 157-183): the list of emitted occupancy
percentages (exact rationals) and the table after the tick. -/
def print_runq_occupancy (perCpu : Bool) (nrCpus B : Nat) (t : Table) :
    List ℚ × Table :=
  occRun B (reportIters perCpu nrCpus) 0 t 0 0

/-- The do-while of `print_linear_hists` (lines 190-196). Each iteration
drains one row and hands it to the external formatter; the emitted output
blocks are the drained histograms themselves. -/
def linRun (B : Nat) : Nat → Nat → Table → List Hist × Table
  | 0, _, t => ([], t)
  | n + 1, i, t =>
      let hr := readAndReset B t i
      let rest := linRun B n (i + 1) hr.2
      (hr.1 :: rest.1, rest.2)

/-- `print_linear_hists` (lines 185-197): emitted histogram blocks and the
table after the tick. -/
def print_linear_hists (perCpu : Bool) (nrCpus B : Nat) (t : Table) :
    List Hist × Table :=
  linRun B (reportIters perCpu nrCpus) 0 t

/-- `sig_handler` (lines 150-153): the signal handler only sets the
`exiting` flag; it touches no other state (its whole state is the flag). -/
def sig_handler (_exiting : Bool) : Bool := true

/-- State of the report loop of `main` (lines 259-277): the remaining
budget `env.times`, the number of completed report ticks, and whether the
`break` has run. -/
structure LState where
  times : Int
  ticks : Nat
  stopped : Bool
  deriving DecidableEq

/-- One iteration of the `while (1)` loop (lines 259-277): sleep, print,
report (one tick), then `if (exiting || --env.times == 0) break;`.
`exitingNow` is the value of the `exiting` flag at the check; the
short-circuit means `env.times` is not decremented when the flag is set.
The report tick always completes before the check. -/
def loopStep (exitingNow : Bool) (s : LState) : LState :=
  if s.stopped then s
  else if exitingNow then
    { s with ticks := s.ticks + 1, stopped := true }
  else
    { times := s.times - 1, ticks := s.ticks + 1,
      stopped := decide (s.times - 1 = 0) }

/-- The loop state after `n` iterations, given the initial budget and the
schedule `exitingAt` saying whether the `exiting` flag is set by the time
of iteration `n`-s check. -/
def loopIter (exitingAt : Nat → Bool) (t0 : Int) : Nat → LState
  | 0 => { times := t0, ticks := 0, stopped := false }
  | n + 1 => loopStep (exitingAt n) (loopIter exitingAt t0 n)

/-- Per-processor outcome of the body of `open_and_attach_perf_event`
(lines 122-137): the `perf_event_open` syscall may fail, the
`bpf_program__attach_perf_event` call may fail, or both succeed. -/
inductive CpuAttach
  | openFail
  | attachFail
  | ok
  deriving DecidableEq

/-- The `for (i = 0; i < nr_cpus; i++)` loop of
`open_and_attach_perf_event`: on open failure return -1 with the links
array as is (line 124-128); on attach failure store NULL in `links[i]`,
close the fd and return -1 (lines 130-136); on success store the link
(modelled by its cpu index) and continue.  `r` is the remaining trip
count `nr_cpus - i`. -/
def attachGo (outcome : Nat → CpuAttach) :
    Nat → Nat → List (Option Nat) → Int × List (Option Nat)
  | 0, _, links => (0, links)
  | r + 1, i, links =>
      match outcome i with
      | CpuAttach.openFail => (-1, links)
      | CpuAttach.attachFail => (-1, links.set i none)
      | CpuAttach.ok => attachGo outcome r (i + 1) (links.set i (some i))

/-- `open_and_attach_perf_event` (lines 111-140) on a links array freshly
zeroed by `calloc` (line 237). -/
def open_and_attach_perf_event (outcome : Nat → CpuAttach) (nrCpus : Nat) :
    Int × List (Option Nat) :=
  attachGo outcome nrCpus 0 (List.replicate nrCpus none)

/-- Environment of one run of `main`: outcomes of the fallible setup
steps, the parsed budget, and the cancellation schedule. -/
structure MainEnv where
  argpErr : Int
  rlimitErr : Int
  openOk : Bool
  nrCpus : Nat
  maxCpuNr : Nat
  callocOk : Bool
  loadErr : Int
  attachOutcome : Nat → CpuAttach
  times : Int
  exitingAt : Nat → Bool

/-- How the setup phase of `main` (lines 213-253) ends: an early `return`
with a literal code, a `goto cleanup` carrying the current value of `err`
and the links array, or fall-through into the report loop (at which point
`err` is 0 and is never assigned again). -/
inductive SetupResult
  | earlyExit (code : Int)
  | cleanupExit (err : Int) (links : List (Option Nat))
  | entersLoop (links : List (Option Nat))
  deriving DecidableEq

/-- The setup phase of `main`, step by step: argp_parse (line 213-215,
`return err`), bump_memlock_rlimit (219-223, `return 1`), open (225-229,
`return 1`), the MAX_CPU_NR check (231-236, `return 1`), calloc of links
(237-241, `goto cleanup` with `err` still 0; the C cleanup loop then
reads through the NULL `links` pointer — modelled here as destroying
nothing), load (246-250, `goto cleanup` with `err` the load error), and
attach (252-253, `goto cleanup` with `err` still 0 on failure). -/
def mainSetup (e : MainEnv) : SetupResult :=
  if e.argpErr ≠ 0 then SetupResult.earlyExit e.argpErr
  else if e.rlimitErr ≠ 0 then SetupResult.earlyExit 1
  else if ¬ e.openOk then SetupResult.earlyExit 1
  else if e.maxCpuNr < e.nrCpus then SetupResult.earlyExit 1
  else if ¬ e.callocOk then SetupResult.cleanupExit 0 []
  else if e.loadErr ≠ 0 then
    SetupResult.cleanupExit e.loadErr (List.replicate e.nrCpus none)
  else
    let ar := open_and_attach_perf_event e.attachOutcome e.nrCpus
    if ar.1 ≠ 0 then SetupResult.cleanupExit 0 ar.2
    else SetupResult.entersLoop ar.2

/-- The value `main` returns (line 285: `return err != 0;` for every path
through `cleanup`; early returns return their literal).  On the loop
path this is the value returned when the loop breaks. -/
def mainExit (e : MainEnv) : Int :=
  match mainSetup e with
  | SetupResult.earlyExit c => c
  | SetupResult.cleanupExit err _ => if err ≠ 0 then 1 else 0
  | SetupResult.entersLoop _ => 0

/-- Number of report ticks after `n` loop iterations of the given run: 0
when setup never reaches the loop. -/
def mainTicks (e : MainEnv) (n : Nat) : Nat :=
  match mainSetup e with
  | SetupResult.entersLoop _ => (loopIter e.exitingAt e.times n).ticks
  | _ => 0

/-- The trace of links destroyed by the cleanup loop (lines 280-281):
`bpf_link__destroy` is called on every slot, and is a no-op on NULL, so
the destroyed links are exactly the non-null entries, in order. -/
def mainDestroyed (e : MainEnv) : List Nat :=
  match mainSetup e with
  | SetupResult.earlyExit _ => []
  | SetupResult.cleanupExit _ links => links.filterMap id
  | SetupResult.entersLoop links => links.filterMap id

/-- A run in which every setup step succeeds: one cpu, attach succeeds,
budget 1, no signal. -/
def okEnv : MainEnv :=
  { argpErr := 0, rlimitErr := 0, openOk := true, nrCpus := 1,
    maxCpuNr := 2, callocOk := true, loadErr := 0,
    attachOutcome := fun _ => CpuAttach.ok, times := 1,
    exitingAt := fun _ => false }

/-- A run whose only fallible step is the per-processor attach loop:
n possible processors, per-processor outcomes given by the function. -/
def attachEnv (outcome : Nat → CpuAttach) (n : Nat) : MainEnv :=
  { argpErr := 0, rlimitErr := 0, openOk := true, nrCpus := n,
    maxCpuNr := n, callocOk := true, loadErr := 0,
    attachOutcome := outcome, times := 5,
    exitingAt := fun _ => false }

/- ------------------------------------------------------------------ -/
/- Helper lemmas                                                       -/
/- ------------------------------------------------------------------ -/

theorem getD_set_self {α : Type} (l : List α) (i : Nat) (d : α) :
    (l.set i d).getD i d = d := by
  induction l generalizing i with
  | nil => rfl
  | cons a l ih =>
      cases i with
      | zero => rfl
      | succ n => exact ih n

theorem getD_set_ne {α : Type} (l : List α) (i j : Nat) (x d : α)
    (h : i ≠ j) : (l.set i x).getD j d = l.getD j d := by
  induction l generalizing i j with
  | nil => rfl
  | cons a l ih =>
      cases i with
      | zero =>
          cases j with
          | zero => exact absurd rfl h
          | succ m => rfl
      | succ n =>
          cases j with
          | zero => rfl
          | succ m => exact ih n m (fun hh => h (congrArg Nat.succ hh))

theorem getD_mem_or {α : Type} (l : List α) (i : Nat) (d : α) :
    l.getD i d ∈ l ∨ l.getD i d = d := by
  induction l generalizing i with
  | nil => right; rfl
  | cons a l ih =>
      cases i with
      | zero => left; exact List.mem_cons_self a l
      | succ n =>
          rcases ih n with h | h
          · left; exact List.mem_cons_of_mem a h
          · right; exact h

theorem set_append_len {α : Type} (l1 l2 : List α) (x : α) :
    (l1 ++ l2).set l1.length x = l1 ++ l2.set 0 x := by
  induction l1 with
  | nil => rfl
  | cons a l ih => exact congrArg (List.cons a) ih

theorem filterMap_id_replicate_none {α : Type} (k : Nat) :
    (List.replicate k (none : Option α)).filterMap id = [] := by
  induction k with
  | zero => rfl
  | succ n ih => simp [List.replicate_succ, ih]

theorem filterMap_id_map_some {α : Type} (l : List α) :
    (l.map some).filterMap id = l := by
  induction l with
  | nil => rfl
  | cons a l ih => simp [ih]

theorem histQueued_zeroHist (B : Nat) : histQueued (zeroHist B) = 0 := by
  cases B with
  | zero => rfl
  | succ n => simp [histQueued, zeroHist, List.replicate_succ]

theorem occPct_zero (a : Nat) : occPct a 0 = 0 := by
  simp [occPct]

theorem occPct_nonneg (a b : Nat) : 0 ≤ occPct a b := by
  unfold occPct
  positivity

theorem occPct_le_hundred (a b : Nat) : occPct a b ≤ 100 := by
  unfold occPct
  have hpos : (0 : ℚ) < ((max 1 (a + b) : Nat) : ℚ) := by
    have h : 0 < max 1 (a + b) := by omega
    exact_mod_cast h
  rw [div_le_iff₀ hpos]
  have hb : (b : ℚ) ≤ ((max 1 (a + b) : Nat) : ℚ) := by
    have h : b ≤ max 1 (a + b) := by omega
    exact_mod_cast h
  linarith

theorem occRun_shape (B : Nat) :
    ∀ (n i : Nat) (t : Table) (idle queued : Nat),
    ∀ x ∈ (occRun B n i t idle queued).1, ∃ a b : Nat, x = occPct a b := by
  intro n
  induction n with
  | zero =>
      intro i t idle queued x hx
      simp [occRun] at hx
  | succ n ih =>
      intro i t idle queued x hx
      simp only [occRun, List.mem_cons] at hx
      rcases hx with hx | hx
      · exact ⟨_, _, hx⟩
      · exact ih (i + 1) _ _ _ x hx

theorem occRun_queued_zero (B : Nat) :
    ∀ (n i : Nat) (t : Table), (∀ h ∈ t, histQueued h = 0) →
    ∀ idle, ∀ x ∈ (occRun B n i t idle 0).1, x = 0 := by
  intro n
  induction n with
  | zero =>
      intro i t ht idle x hx
      simp [occRun] at hx
  | succ n ih =>
      intro i t ht idle x hx
      have hq : histQueued (t.getD i (zeroHist B)) = 0 := by
        rcases getD_mem_or t i (zeroHist B) with h | h
        · exact ht _ h
        · rw [h]; exact histQueued_zeroHist B
      simp only [occRun, readAndReset, hq, Nat.add_zero, List.mem_cons] at hx
      rcases hx with hx | hx
      · rw [hx]; exact occPct_zero _
      · refine ih (i + 1) (t.set i (zeroHist B)) ?_ _ x hx
        intro h hmem
        rcases List.mem_or_eq_of_mem_set hmem with hm | hm
        · exact ht _ hm
        · rw [hm]; exact histQueued_zeroHist B

theorem loopStep_of_stopped (b : Bool) (s : LState) (h : s.stopped = true) :
    loopStep b s = s := by
  simp [loopStep, h]

theorem loopStep_ticks (b : Bool) (s : LState) (h : s.stopped = false) :
    (loopStep b s).ticks = s.ticks + 1 := by
  cases b <;> simp [loopStep, h]

theorem loopIter_stable (f : Nat → Bool) (t0 : Int) (n : Nat)
    (h : (loopIter f t0 n).stopped = true) :
    ∀ m, loopIter f t0 (n + m) = loopIter f t0 n := by
  intro m
  induction m with
  | zero => rfl
  | succ m ih =>
      have he : n + (m + 1) = (n + m) + 1 := rfl
      rw [he, loopIter, ih, loopStep_of_stopped _ _ h]

theorem loopIter_congr (f g : Nat → Bool) (t0 : Int) :
    ∀ n, (∀ m, m < n → f m = g m) → loopIter f t0 n = loopIter g t0 n := by
  intro n
  induction n with
  | zero => intro _; rfl
  | succ n ih =>
      intro h
      rw [loopIter, loopIter, ih (fun m hm => h m (by omega)),
        h n (by omega)]

theorem loopIter_noSig (k : Nat) (hk : 1 ≤ k) :
    ∀ n, n ≤ k → loopIter (fun _ => false) (k : Int) n =
      { times := (k : Int) - n, ticks := n, stopped := decide (n = k) } := by
  intro n
  induction n with
  | zero =>
      intro _
      have h0 : decide ((0 : Nat) = k) = false := by
        simp; omega
      simp [loopIter, h0]
  | succ n ih =>
      intro hle
      have hn : n ≤ k := by omega
      have hlt : n < k := by omega
      have hst : decide (n = k) = false := by
        simp; omega
      rw [loopIter, ih hn, hst]
      have ht : (k : Int) - n - 1 = (k : Int) - ((n + 1 : Nat) : Int) := by
        push_cast
        ring
      have hs : decide ((k : Int) - n - 1 = 0) = decide ((n + 1 : Nat) = k) :=
        decide_eq_decide.mpr (by omega)
      simp [loopStep, ht, hs]
      omega

theorem loopIter_nonpos (t0 : Int) (h : t0 ≤ 0) :
    ∀ n, loopIter (fun _ => false) t0 n =
      { times := t0 - n, ticks := n, stopped := false } := by
  intro n
  induction n with
  | zero => simp [loopIter]
  | succ n ih =>
      rw [loopIter, ih]
      have hs : decide (t0 - n - 1 = 0) = false := by
        simp
        omega
      have ht : t0 - n - 1 = t0 - ((n + 1 : Nat) : Int) := by
        push_cast
        ring
      simp [loopStep, hs, ht]
      omega

theorem map_some_append_set (i r : Nat) (x : Option Nat) :
    ((List.range i).map some ++ List.replicate (r + 1) (none : Option Nat)).set i x =
      (List.range i).map some ++ (x :: List.replicate r none) := by
  have hl : ((List.range i).map (some : Nat → Option Nat)).length = i := by
    simp
  have h1 := set_append_len ((List.range i).map (some : Nat → Option Nat))
    (List.replicate (r + 1) none) x
  rw [hl] at h1
  rw [h1, List.replicate_succ]
  rfl

theorem attachGo_ok_prefix (outcome : Nat → CpuAttach) :
    ∀ (j r i : Nat), j < r →
    (∀ m, m < j → outcome (i + m) = CpuAttach.ok) →
    outcome (i + j) ≠ CpuAttach.ok →
    attachGo outcome r i ((List.range i).map some ++ List.replicate r none) =
      (-1, (List.range (i + j)).map some ++ List.replicate (r - j) none) := by
  intro j
  induction j with
  | zero =>
      intro r i hr _ hfail
      rw [Nat.add_zero] at hfail
      cases r with
      | zero => omega
      | succ r =>
          have hset := map_some_append_set i r (none : Option Nat)
          rw [← List.replicate_succ] at hset
          cases houtcome : outcome i with
          | openFail => simp [attachGo, houtcome]
          | attachFail => simp [attachGo, houtcome, hset]
          | ok => exact absurd houtcome hfail
  | succ j ih =>
      intro r i hr hok hfail
      cases r with
      | zero => omega
      | succ r =>
          have h0 : outcome i = CpuAttach.ok := by
            have h := hok 0 (by omega)
            rwa [Nat.add_zero] at h
          have hset : (((List.range i).map some ++
              List.replicate (r + 1) (none : Option Nat)).set i (some i)) =
              (List.range (i + 1)).map some ++ List.replicate r none := by
            rw [map_some_append_set i r (some i), List.range_succ]
            simp
          have hok2 : ∀ m, m < j → outcome ((i + 1) + m) = CpuAttach.ok := by
            intro m hm
            have h := hok (m + 1) (by omega)
            rwa [show i + (m + 1) = (i + 1) + m by omega] at h
          have hfail2 : outcome ((i + 1) + j) ≠ CpuAttach.ok := by
            rwa [show i + (j + 1) = (i + 1) + j by omega] at hfail
          have hrec := ih r (i + 1) (by omega) hok2 hfail2
          have hstep : attachGo outcome (r + 1) i
              ((List.range i).map some ++ List.replicate (r + 1) none) =
              attachGo outcome r (i + 1)
                ((List.range (i + 1)).map some ++ List.replicate r none) := by
            simp [attachGo, h0, hset]
          rw [hstep, hrec, show (i + 1) + j = i + (j + 1) by omega,
            show r - j = (r + 1) - (j + 1) by omega]

theorem open_and_attach_fail (outcome : Nat → CpuAttach) (n j : Nat)
    (hj : j < n) (hok : ∀ m, m < j → outcome m = CpuAttach.ok)
    (hfail : outcome j ≠ CpuAttach.ok) :
    open_and_attach_perf_event outcome n =
      (-1, (List.range j).map some ++ List.replicate (n - j) none) := by
  have h := attachGo_ok_prefix outcome j n 0 hj
    (by intro m hm; rw [Nat.zero_add]; exact hok m hm)
    (by rw [Nat.zero_add]; exact hfail)
  simpa [open_and_attach_perf_event] using h

/- ------------------------------------------------------------------ -/
/- Claim theorems                                                      -/
/- ------------------------------------------------------------------ -/

/-- C1: evaluation of the code at the failing input.  In per-processor
occupancy mode with drained histograms [[5,2,1,0],[0,0,0,3]], the idle
and queued accumulators carry over from processor 0 to processor 1
(they are initialized once, outside the do-while), so processor 1 is
reported as 600/11 percent, about 54.55 percent, strictly below the
100.00 percent the claim requires for a processor whose samples all saw
a nonempty queue. -/
theorem C1_code_eval :
    (print_runq_occupancy true 2 4 [[5, 2, 1, 0], [0, 0, 0, 3]]).1 =
      [75 / 2, 600 / 11] ∧
    (600 : ℚ) / 11 < 100 := by
  constructor
  · have h : (print_runq_occupancy true 2 4 [[5, 2, 1, 0], [0, 0, 0, 3]]).1 =
        [occPct 5 3, occPct 5 6] := rfl
    rw [h]
    norm_num [occPct]
  · norm_num

/-- C2: evaluation of the code at the failing inputs.  main returns
err != 0, but err is never reassigned on the calloc-failure and
attach-failure paths, so those two setup failures exit with status 0
after printing their diagnostic; resource-limit, open and load failures
do exit 1, and a clean run exits 0.  On the attach-failure path cleanup
destroys nothing because no processor was attached. -/
theorem C2_code_eval :
    mainExit { okEnv with attachOutcome := fun _ => CpuAttach.attachFail } = 0 ∧
    mainExit { okEnv with callocOk := false } = 0 ∧
    mainExit { okEnv with rlimitErr := 1 } = 1 ∧
    mainExit { okEnv with openOk := false } = 1 ∧
    mainExit { okEnv with loadErr := -22 } = 1 ∧
    mainExit okEnv = 0 ∧
    mainDestroyed { okEnv with attachOutcome := fun _ => CpuAttach.attachFail } = [] := by
  decide

/-- C3 counterexample: with per-processor output disabled, two
processors and table [[0,1],[0,1]], one reporter invocation emits the
single block [0,1] — not the bucket-wise sum [0,2] (their totals differ,
1 versus 2) — and leaves row 1 untouched as [0,1] instead of resetting
it to zero. -/
theorem C3_counterexample :
    (print_linear_hists false 2 2 [[0, 1], [0, 1]]).1 = [[0, 1]] ∧
    (print_linear_hists false 2 2 [[0, 1], [0, 1]]).2 = [[0, 0], [0, 1]] ∧
    List.sum [0, 1] < List.sum [0, 2] := by
  decide

/-- C3 (amended): when per-processor output is disabled, one invocation
of the reporter — in either rendering mode — reads and resets only
histogram row 0 and emits exactly one output block computed from row 0
alone (cross-processor aggregation happens in the sampler, which is
configured to write every sample into row 0 when per-processor mode is
off). -/
theorem C3_thm (nrCpus B : Nat) (t : Table) :
    (print_linear_hists false nrCpus B t).1 = [t.getD 0 (zeroHist B)] ∧
    (print_linear_hists false nrCpus B t).2 = t.set 0 (zeroHist B) ∧
    (print_runq_occupancy false nrCpus B t).1 =
      [occPct (histIdle (t.getD 0 (zeroHist B)))
        (histQueued (t.getD 0 (zeroHist B)))] ∧
    (print_runq_occupancy false nrCpus B t).2 = t.set 0 (zeroHist B) := by
  refine ⟨rfl, rfl, ?_, rfl⟩
  simp [print_runq_occupancy, reportIters, occRun, readAndReset]

/-- C4 counterexample: with a sample-count budget of 0 and no
cancellation, the session does not emit exactly 0 report ticks and
terminate: after one loop iteration it has already emitted 1 tick
(0 < 1) and the loop has not stopped. -/
theorem C4_counterexample :
    (loopIter (fun _ => false) 0 1).ticks = 1 ∧
    (loopIter (fun _ => false) 0 1).stopped = false ∧
    (0 : Nat) < 1 := by
  decide

/-- C4 (amended): for every sample-count budget k with k at least 1, a
session that receives no cancellation signal emits exactly k report
ticks — the loop stops at iteration k with k ticks, was not stopped at
any earlier iteration, and emits no further tick afterwards — and main
then returns exit code 0. -/
theorem C4_thm (k : Nat) (hk : 1 ≤ k) :
    (loopIter (fun _ => false) (k : Int) k).ticks = k ∧
    (loopIter (fun _ => false) (k : Int) k).stopped = true ∧
    (∀ m, m < k → (loopIter (fun _ => false) (k : Int) m).stopped = false) ∧
    (∀ m, mainTicks { okEnv with times := (k : Int) } (k + m) = k) ∧
    mainExit { okEnv with times := (k : Int) } = 0 := by
  have hinv := loopIter_noSig k hk
  have hk2 := hinv k le_rfl
  have hticks : (loopIter (fun _ => false) (k : Int) k).ticks = k := by
    rw [hk2]
  have hstop : (loopIter (fun _ => false) (k : Int) k).stopped = true := by
    rw [hk2]
    show decide (k = k) = true
    simp
  refine ⟨hticks, hstop, ?_, ?_, rfl⟩
  · intro m hm
    rw [hinv m (by omega)]
    show decide (m = k) = false
    rw [decide_eq_false_iff_not]
    omega
  · intro m
    have hstable := loopIter_stable (fun _ => false) (k : Int) k hstop m
    calc mainTicks { okEnv with times := (k : Int) } (k + m)
        = (loopIter (fun _ => false) (k : Int) (k + m)).ticks := rfl
      _ = k := by rw [hstable, hticks]

/-- C4 witness: the amended claim at budget 2. -/
theorem C4_witness :
    1 ≤ 2 ∧ (loopIter (fun _ => false) ((2 : Nat) : Int) 2).ticks = 2 :=
  ⟨by decide, (C4_thm 2 (by decide)).1⟩

/-- C5: after the reporter performs read-and-reset on processor index i,
a second immediate read of index i (no intervening write) returns the
all-zero histogram. -/
theorem C5_thm (B : Nat) (t : Table) (i : Nat) :
    (readAndReset B (readAndReset B t i).2 i).1 = zeroHist B :=
  getD_set_self t i (zeroHist B)

/-- C6: every occupancy percentage the reporter emits lies in [0, 100];
if every sample of every histogram fell in bucket 0 then every emitted
percentage is 0; if the total sample count is zero then every emitted
percentage is 0; and the divisor floor makes the zero-sample case
well-defined, occPct 0 0 = 0. -/
theorem C6_thm (perCpu : Bool) (nrCpus B : Nat) (t : Table) :
    (∀ x ∈ (print_runq_occupancy perCpu nrCpus B t).1, 0 ≤ x ∧ x ≤ 100) ∧
    ((∀ h ∈ t, histQueued h = 0) →
      ∀ x ∈ (print_runq_occupancy perCpu nrCpus B t).1, x = 0) ∧
    ((∀ h ∈ t, histIdle h = 0 ∧ histQueued h = 0) →
      ∀ x ∈ (print_runq_occupancy perCpu nrCpus B t).1, x = 0) ∧
    occPct 0 0 = 0 := by
  refine ⟨?_, ?_, ?_, occPct_zero 0⟩
  · intro x hx
    obtain ⟨a, b, rfl⟩ := occRun_shape B (reportIters perCpu nrCpus) 0 t 0 0 x hx
    exact ⟨occPct_nonneg a b, occPct_le_hundred a b⟩
  · intro ht x hx
    exact occRun_queued_zero B (reportIters perCpu nrCpus) 0 t ht 0 x hx
  · intro ht x hx
    exact occRun_queued_zero B (reportIters perCpu nrCpus) 0 t
      (fun h hm => (ht h hm).2) 0 x hx

/-- C6 witness: the bound at a concrete emitted percentage. -/
theorem C6_witness :
    0 ≤ occPct 1 1 ∧ occPct 1 1 ≤ 100 :=
  (C6_thm false 1 2 [[1, 1]]).1 (occPct 1 1) (by
    show occPct 1 1 ∈ (print_runq_occupancy false 1 2 [[1, 1]]).1
    simp [print_runq_occupancy, reportIters, occRun, readAndReset,
      histIdle, histQueued])

/-- C7: if the perf-event attachment fails on processor j, with
processors 0..j-1 already attached, the setup phase ends in a cleanup
exit, no report tick ever executes, and the cleanup destroys exactly the
links of processors 0..j-1, each exactly once. -/
theorem C7_thm (outcome : Nat → CpuAttach) (n j : Nat) (hj : j < n)
    (hok : ∀ m, m < j → outcome m = CpuAttach.ok)
    (hfail : outcome j ≠ CpuAttach.ok) :
    mainSetup (attachEnv outcome n) =
      SetupResult.cleanupExit 0
        ((List.range j).map some ++ List.replicate (n - j) none) ∧
    (∀ fuel, mainTicks (attachEnv outcome n) fuel = 0) ∧
    mainDestroyed (attachEnv outcome n) = List.range j ∧
    (∀ m, m < j → (mainDestroyed (attachEnv outcome n)).count m = 1) := by
  have hoa := open_and_attach_fail outcome n j hj hok hfail
  have hsetup : mainSetup (attachEnv outcome n) =
      SetupResult.cleanupExit 0
        ((List.range j).map some ++ List.replicate (n - j) none) := by
    simp [mainSetup, attachEnv, hoa]
  have hdest : mainDestroyed (attachEnv outcome n) = List.range j := by
    simp only [mainDestroyed, hsetup]
    rw [List.filterMap_append, filterMap_id_map_some,
      filterMap_id_replicate_none, List.append_nil]
  refine ⟨hsetup, ?_, hdest, ?_⟩
  · intro fuel
    simp only [mainTicks, hsetup]
  · intro m hm
    rw [hdest]
    exact List.count_eq_one_of_mem (List.nodup_range j) (List.mem_range.mpr hm)

/-- C7 witness: attach succeeds on processor 0 and fails on processor 1
of 2; exactly link 0 is destroyed. -/
theorem C7_witness :
    1 < 2 ∧
    mainDestroyed (attachEnv
      (fun m => if m = 0 then CpuAttach.ok else CpuAttach.attachFail) 2) =
      List.range 1 :=
  ⟨by decide,
    (C7_thm (fun m => if m = 0 then CpuAttach.ok else CpuAttach.attachFail) 2 1
      (by decide) (by decide) (by decide)).2.2.1⟩

/-- C8: the signal handler only sets the exiting flag; the loop state
through iteration n does not depend on signal arrivals at iteration n or
later (the flag is observed only at the boundary check); the tick count
after iteration n+1 is the same whether or not a signal arrives during
iteration n; and an iteration that starts always completes its report,
incrementing the tick count, before the stop flag is consulted. -/
theorem C8_thm (f g : Nat → Bool) (t0 : Int) (n : Nat)
    (hagree : ∀ m, m < n → f m = g m) :
    loopIter f t0 n = loopIter g t0 n ∧
    (loopIter f t0 (n + 1)).ticks = (loopIter g t0 (n + 1)).ticks ∧
    ((loopIter f t0 n).stopped = false →
      (loopIter f t0 (n + 1)).ticks = (loopIter f t0 n).ticks + 1) ∧
    (∀ b, sig_handler b = true) := by
  have hn := loopIter_congr f g t0 n hagree
  refine ⟨hn, ?_, ?_, fun _ => rfl⟩
  · rw [loopIter, loopIter, hn]
    cases hstop : (loopIter g t0 n).stopped with
    | true => rw [loopStep_of_stopped _ _ hstop, loopStep_of_stopped _ _ hstop]
    | false => rw [loopStep_ticks _ _ hstop, loopStep_ticks _ _ hstop]
  · intro hstop
    rw [loopIter, loopStep_ticks _ _ hstop]

/-- C8 witness: schedules that differ already at iteration 0 (signal
during the first tick versus no signal) give the same tick count after
iteration 1. -/
theorem C8_witness :
    (∀ m, m < 0 →
      (fun _ => false : Nat → Bool) m = (fun _ => true : Nat → Bool) m) ∧
    (loopIter (fun _ => false) 5 (0 + 1)).ticks =
      (loopIter (fun _ => true) 5 (0 + 1)).ticks :=
  ⟨fun m hm => absurd hm (Nat.not_lt_zero m),
    (C8_thm (fun _ => false) (fun _ => true) 5 0
      (fun m hm => absurd hm (Nat.not_lt_zero m))).2.1⟩

/-- C9: in aggregate mode (per-processor output disabled) a single
report tick, in either rendering mode, replaces row 0 with the all-zero
histogram and leaves every row with index at least 1 unchanged. -/
theorem C9_thm (nrCpus B : Nat) (t : Table) (j : Nat) (hj : 1 ≤ j) :
    (print_runq_occupancy false nrCpus B t).2 = t.set 0 (zeroHist B) ∧
    (print_linear_hists false nrCpus B t).2 = t.set 0 (zeroHist B) ∧
    (print_runq_occupancy false nrCpus B t).2.getD j (zeroHist B) =
      t.getD j (zeroHist B) ∧
    (print_linear_hists false nrCpus B t).2.getD j (zeroHist B) =
      t.getD j (zeroHist B) := by
  have hne : (0 : Nat) ≠ j := by omega
  exact ⟨rfl, rfl, getD_set_ne t 0 j (zeroHist B) (zeroHist B) hne,
    getD_set_ne t 0 j (zeroHist B) (zeroHist B) hne⟩

/-- C9 witness: row 1 of a two-row table survives an aggregate tick. -/
theorem C9_witness :
    1 ≤ 1 ∧
    (print_runq_occupancy false 3 1 [[1], [2]]).2.getD 1 (zeroHist 1) =
      List.getD [[1], [2]] 1 (zeroHist 1) :=
  ⟨by decide, (C9_thm 3 1 [[1], [2]] 1 (by decide)).2.2.1⟩

/-- C10: with budget 0 and no cancellation, one iteration leaves the
loop running with budget -1 and one tick emitted — the decrement happens
before the zero comparison, so the stop condition is missed; for every
nonpositive initial budget the loop never stops, and budget exhaustion
does stop it for every initial budget of at least 1. -/
theorem C10_thm :
    loopIter (fun _ => false) 0 1 =
      { times := -1, ticks := 1, stopped := false } ∧
    (∀ t0 : Int, t0 ≤ 0 → ∀ n,
      (loopIter (fun _ => false) t0 n).stopped = false) ∧
    (∀ k : Nat, 1 ≤ k →
      (loopIter (fun _ => false) (k : Int) k).stopped = true) := by
  refine ⟨by decide, ?_, ?_⟩
  · intro t0 ht n
    rw [loopIter_nonpos t0 ht n]
  · intro k hk
    rw [loopIter_noSig k hk k le_rfl]
    show decide (k = k) = true
    simp

/-- C10 witness: a negative budget keeps the loop running. -/
theorem C10_witness :
    (-5 : Int) ≤ 0 ∧ (loopIter (fun _ => false) (-5) 3).stopped = false :=
  ⟨by decide, C10_thm.2.1 (-5) (by decide) 3⟩

end Runqlen
